import Mathlib

/-!
Shallow embedding of the purchasing-agent admin panel core:
the product repository (services/apiProducts.ts), the product form
controller (useProductForm) and the list view controller
(routes/products/index.tsx), together with theorems settling the
specification claims about them.

Backend calls are modelled as traces of issued calls plus an explicit
environment supplying each call's outcome; JavaScript strings are Lean
strings and JavaScript array indices are integers (so negative indices
can be expressed).
-/

/-- JavaScript s.includes(t) on an explicit character list:
true iff needle occurs as a contiguous substring of hay. -/
def containsSub (hay needle : List Char) : Bool :=
  if needle.isPrefixOf hay then true
  else
    match hay with
    | [] => false
    | _ :: rest => containsSub rest needle

/-- JavaScript String.prototype.includes. -/
def jsIncludes (s t : String) : Bool :=
  containsSub s.data t.data

/-- JavaScript String.prototype.toLowerCase, character by character
(the source only lowercases names and search terms). -/
def jsToLower (s : String) : String :=
  String.mk (s.data.map Char.toLower)

/-- JavaScript String.prototype.trim: strip whitespace from both ends. -/
def jsTrim (s : String) : String :=
  String.mk
    (((s.data.dropWhile Char.isWhitespace).reverse.dropWhile
        Char.isWhitespace).reverse)

/-- JavaScript String.prototype.startsWith. -/
def jsStartsWith (s t : String) : Bool :=
  t.data.isPrefixOf s.data

/-- JavaScript array access arr[i] with a possibly negative index:
undefined (none) when the index is out of range. -/
def jsIndex (l : List α) (i : Int) : Option α :=
  if i < 0 then none else l.get? i.toNat

/-- JavaScript Array.prototype.indexOf: position of the first occurrence,
none standing for the -1 of a missing element. -/
def jsIndexOf [DecidableEq α] : List α → α → Option Nat
  | [], _ => none
  | a :: as, x => if a = x then some 0 else (jsIndexOf as x).map (· + 1)

/-- JavaScript arr.filter((_, i) => i !== index): drops the element at
position index when the index is in range, otherwise keeps the list. -/
def filterOutIdx : List α → Int → List α
  | [], _ => []
  | a :: as, index =>
      if index = 0 then filterOutIdx as (index - 1)
      else a :: filterOutIdx as (index - 1)

/-- Leftmost match of the regex /marker(.+)$/ over a character list:
the first position where marker occurs with a nonempty remainder yields
that remainder as the capture. -/
def findAfterMarker (marker : List Char) : List Char → Option (List Char)
  | [] => none
  | c :: rest =>
      if marker.isPrefixOf (c :: rest) && decide (marker.length < (c :: rest).length) then
        some ((c :: rest).drop marker.length)
      else findAfterMarker marker rest

/-! ## Data model (src/types/products.ts) -/

/-- interface ProductVariant: the optional id is server-assigned. -/
structure ProductVariant where
  id : Option String
  name : String
  stock : Int
  price : Int
deriving DecidableEq, Repr

/-- The non-variant fields of interface ProductFormData. -/
structure ProductFormFields where
  productName : String
  productDescription : String
  productTags : String
  productImages : List String
  inventoryNumber : String
  inventoryQuantity : Int
  exchangeRate : Int
  costPrice : Int
  productPrice : Int
deriving DecidableEq, Repr

/-- interface ProductFormData: variants is an optional field, so a
missing list (undefined) is distinct from an empty list. -/
structure ProductFormData extends ProductFormFields where
  variants : Option (List ProductVariant)
deriving DecidableEq, Repr

/-- interface Product: the form fields plus server-assigned id and
timestamps (timestamps kept as the raw strings the API returns). -/
structure Product extends ProductFormFields where
  id : String
  created_at : String
  updated_at : String
deriving DecidableEq, Repr

/-- Variant row built by createProducts: the spread {...v, product_id}
keeps every field of the client variant, including its optional id. -/
structure VariantInsertRow where
  id : Option String
  name : String
  stock : Int
  price : Int
  product_id : String
deriving DecidableEq, Repr

/-- Variant row built by updateProduct: exactly the four fields
product_id, name, stock, price; the client id is not copied. -/
structure VariantRow where
  product_id : String
  name : String
  stock : Int
  price : Int
deriving DecidableEq, Repr

/-- The calls the repository issues against the remote data store,
object storage and the toast UI, in issue order. -/
inductive DbCall where
  | insertProduct (fields : ProductFormFields)
  | insertCreateVariants (rows : List VariantInsertRow)
  | updateProductRow (id : String) (fields : ProductFormFields)
  | deleteVariants (product_id : String)
  | insertUpdateVariants (rows : List VariantRow)
  | selectProductImages (id : String)
  | deleteProductRow (id : String)
  | storageRemove (keys : List String)
  | warnToast
deriving DecidableEq, Repr

/-- Whether a call is a product-row insert. -/
def isInsertProductCall : DbCall → Bool
  | .insertProduct _ => true
  | _ => false

/-! ## Product repository (services/apiProducts.ts) -/

/-- Outcomes the environment supplies to one createProducts call:
the result of the product insert and, when reached, the error (if any)
of the variant insert. -/
structure CreateEnv where
  productInsert : Except String Product
  variantsInsertError : Option String
deriving Repr

/-- createProducts: insert the product row; if the variant list is
non-empty, insert every variant spread with the new product id; return
the created product. Errors are rethrown. -/
def createProducts (productData : ProductFormFields) (variants : List ProductVariant)
    (env : CreateEnv) : List DbCall × Except String Product :=
  match env.productInsert with
  | .error e => ([.insertProduct productData], .error e)
  | .ok product =>
      if variants.length > 0 then
        let variantsWithProductId := variants.map (fun v =>
          { id := v.id, name := v.name, stock := v.stock, price := v.price,
            product_id := product.id : VariantInsertRow })
        match env.variantsInsertError with
        | some e =>
            ([.insertProduct productData, .insertCreateVariants variantsWithProductId],
             .error e)
        | none =>
            ([.insertProduct productData, .insertCreateVariants variantsWithProductId],
             .ok product)
      else ([.insertProduct productData], .ok product)

/-- Outcomes the environment supplies to one updateProduct call. -/
structure UpdateEnv where
  productUpdate : Except String Product
  variantDeleteError : Option String
  variantInsertError : Option String
deriving Repr

/-- updateProduct builds each inserted variant row from exactly the
fields product_id, name, stock and price. -/
def variantRowFor (id : String) (variant : ProductVariant) : VariantRow :=
  { product_id := id, name := variant.name, stock := variant.stock,
    price := variant.price }

/-- updateProduct: update the product row by id; then, only when the
variants field is present (defined), delete all old variant rows for
the id and, when the new list is non-empty, insert the rebuilt rows.
Errors at any step are rethrown. -/
def updateProduct (id : String) (productData : ProductFormData)
    (env : UpdateEnv) : List DbCall × Except String Product :=
  let variants := productData.variants
  let productFields := productData.toProductFormFields
  match env.productUpdate with
  | .error e => ([.updateProductRow id productFields], .error e)
  | .ok updatedProduct =>
      match variants with
      | none => ([.updateProductRow id productFields], .ok updatedProduct)
      | some vs =>
          match env.variantDeleteError with
          | some e =>
              ([.updateProductRow id productFields, .deleteVariants id], .error e)
          | none =>
              if vs.length > 0 then
                let variantsToInsert := vs.map (variantRowFor id)
                match env.variantInsertError with
                | some e =>
                    ([.updateProductRow id productFields, .deleteVariants id,
                      .insertUpdateVariants variantsToInsert], .error e)
                | none =>
                    ([.updateProductRow id productFields, .deleteVariants id,
                      .insertUpdateVariants variantsToInsert], .ok updatedProduct)
              else
                ([.updateProductRow id productFields, .deleteVariants id],
                 .ok updatedProduct)

/-- A product row joined with its variant rows, as returned by the
select with the variants(*) join. -/
structure ProductWithVariants where
  product : Product
  variants : List VariantRow
deriving DecidableEq, Repr

/-- The observable completion of a JavaScript async function: either a
thrown value or a returned one. -/
inductive JsOutcome (α : Type) where
  | thrown (e : String)
  | returned (v : α)
deriving DecidableEq, Repr

/-- getProduct over a table of joined rows: .single() yields the row
when exactly one matches and an error otherwise; the error is only
logged, and the function returns data, which is null on error. -/
def getProduct (productId : String) (table : List ProductWithVariants) :
    JsOutcome (Option ProductWithVariants) :=
  match table.filter (fun row => row.product.id = productId) with
  | [row] => .returned (some row)
  | _ => .returned none

/-- Outcomes the environment supplies to one deleteProduct call: the
fetched productImages list (a null column is modelled as the empty
list, which the length check treats the same way), the row-delete
error and the storage-remove error. -/
structure DeleteEnv where
  fetchResult : Except String (List String)
  rowDeleteError : Option String
  storageRemoveError : Option String
deriving Repr

/-- Key extraction in deleteProduct: url.match(/productImage\/(.+)$/),
keeping the capture (everything after the bucket name). -/
def extractImageKey (url : String) : Option String :=
  (findAfterMarker "productImage/".data url.data).map List.asString

/-- deleteProduct: fetch the productImages of the row, delete the row,
then extract a storage key from each URL and batch-remove the keys.
Fetch and row-delete errors are rethrown; a storage-remove error only
produces a warning toast and the call still returns success. -/
def deleteProduct (productId : String) (env : DeleteEnv) :
    List DbCall × JsOutcome Bool :=
  match env.fetchResult with
  | .error e => ([.selectProductImages productId], .thrown e)
  | .ok productImages =>
      match env.rowDeleteError with
      | some e =>
          ([.selectProductImages productId, .deleteProductRow productId], .thrown e)
      | none =>
          if productImages.length > 0 then
            let filePaths := productImages.filterMap extractImageKey
            if filePaths.length > 0 then
              match env.storageRemoveError with
              | some _ =>
                  ([.selectProductImages productId, .deleteProductRow productId,
                    .storageRemove filePaths, .warnToast], .returned true)
              | none =>
                  ([.selectProductImages productId, .deleteProductRow productId,
                    .storageRemove filePaths], .returned true)
            else
              ([.selectProductImages productId, .deleteProductRow productId],
               .returned true)
          else
            ([.selectProductImages productId, .deleteProductRow productId],
             .returned true)

/-! ## Product form controller (useProductForm) -/

/-- The recognition test of handleSubmit step 2: an image entry counts
as already persisted when it contains the storage domain marker. -/
def isPersistedUrl (img : String) : Bool :=
  jsIncludes img "supabase.co"

/-- handleSubmit step 2: keep the current entries recognized as
persisted URLs and append the newly uploaded URLs. -/
def reconcileImages (currentImages uploadedUrls : List String) : List String :=
  let existingUrls := currentImages.filter isPersistedUrl
  existingUrls ++ uploadedUrls

/-- The local-preview test used by removeImage: object URLs start with
the blob scheme. -/
def isBlobUrl (img : String) : Bool :=
  jsStartsWith img "blob:"

/-- removeImage(index) over the controller state (visible image list,
pending files): when the indexed entry exists and is a local preview,
drop the pending file at the position of that entry among the blob
entries; then drop the indexed entry from the visible list. -/
def removeImage {α : Type} (index : Int) (currentImages : List String)
    (pendingFiles : List α) : List String × List α :=
  let imageToRemove := jsIndex currentImages index
  let pendingAfter :=
    match imageToRemove with
    | some img =>
        if isBlobUrl img then
          let blobUrls := currentImages.filter isBlobUrl
          match jsIndexOf blobUrls img with
          | some blobIndex => filterOutIdx pendingFiles (blobIndex : Int)
          | none => pendingFiles
        else pendingFiles
    | none => pendingFiles
  let newImages := filterOutIdx currentImages index
  (newImages, pendingAfter)

/-! ## List view controller (routes/products/index.tsx) -/

/-- The three sort keys of the list view. -/
inductive SortKey where
  | id
  | qty
  | created_at
deriving DecidableEq, Repr

/-- A JavaScript value as it occurs in the comparator: a string, a
number, or undefined (the read of a property the object lacks). -/
inductive JsVal where
  | str (s : String)
  | num (n : Int)
  | undefined
deriving DecidableEq, Repr

/-- The JavaScript less-than of the comparator: strings compare
lexicographically, numbers numerically, and any comparison involving
undefined is false (its numeric conversion is NaN). The mixed
string/number cases never arise here since both operands are reads of
the same property. -/
def jsLt : JsVal → JsVal → Bool
  | .str a, .str b => a < b
  | .num a, .num b => a < b
  | _, _ => false

/-- The value the comparator reads for one product: the parsed
created_at timestamp, the id string, or the qty property — which the
Product type does not have, so the read gives undefined. -/
def sortVal (parseDate : String → Int) (key : SortKey) (p : Product) : JsVal :=
  match key with
  | .created_at => .num (parseDate p.created_at)
  | .id => .str p.id
  | .qty => .undefined

/-- The sort comparator of filteredProducts. parseDate stands for
new Date(s).getTime(). -/
def productCmp (parseDate : String → Int) (key : SortKey) (sortAsc : Bool)
    (a b : Product) : Int :=
  let aVal := sortVal parseDate key a
  let bVal := sortVal parseDate key b
  if jsLt aVal bVal then (if sortAsc then -1 else 1)
  else if jsLt bVal aVal then (if sortAsc then 1 else -1)
  else 0

/-- Insert an element into an already sorted list, after every element
it does not strictly precede — the placement a stable sort gives. -/
def insertCmp (cmp : α → α → Int) (a : α) : List α → List α
  | [] => [a]
  | b :: bs => if cmp a b ≤ 0 then a :: b :: bs else b :: insertCmp cmp a bs

/-- Stable sort by a comparator, modelling Array.prototype.sort (stable
per the language specification). -/
def stableSortBy (cmp : α → α → Int) : List α → List α
  | [] => []
  | a :: as => insertCmp cmp a (stableSortBy cmp as)

/-- The filter stage of filteredProducts: the name filter applies only
when the trimmed search term is non-empty (and then matches against
the untrimmed term, lowercased); the tag filter applies only when the
selected category differs from the sentinel. -/
def filterStage (searchTerm filterCategory : String) (products : List Product) :
    List Product :=
  let l1 :=
    if jsTrim searchTerm ≠ "" then
      products.filter (fun p =>
        jsIncludes (jsToLower p.productName) (jsToLower searchTerm))
    else products
  if filterCategory ≠ "全部" then
    l1.filter (fun p => p.productTags = filterCategory)
  else l1

/-- filteredProducts: filter by search term and category, then sort
with the comparator for the selected key and direction. -/
def filteredProducts (parseDate : String → Int) (searchTerm filterCategory : String)
    (key : SortKey) (sortAsc : Bool) (products : List Product) : List Product :=
  stableSortBy (productCmp parseDate key sortAsc)
    (filterStage searchTerm filterCategory products)

/-! ## Concrete sample data for witnesses and counterexamples -/

def sampleFields : ProductFormFields :=
  { productName := "Hat", productDescription := "", productTags := "Apparel",
    productImages := [], inventoryNumber := "A1", inventoryQuantity := 3,
    exchangeRate := 1, costPrice := 5, productPrice := 10 }

def sampleProduct : Product :=
  { toProductFormFields := sampleFields, id := "p1",
    created_at := "2024-01-01T00:00:00Z", updated_at := "2024-01-01T00:00:00Z" }

def sampleVariant : ProductVariant :=
  { id := some "v9", name := "Red", stock := 5, price := 12 }

def productQty5 : Product :=
  { toProductFormFields := { sampleFields with productName := "A", inventoryQuantity := 5 },
    id := "a", created_at := "2024-01-02T00:00:00Z", updated_at := "2024-01-02T00:00:00Z" }

def productQty3 : Product :=
  { toProductFormFields := { sampleFields with productName := "B", inventoryQuantity := 3 },
    id := "b", created_at := "2024-01-03T00:00:00Z", updated_at := "2024-01-03T00:00:00Z" }

def okCreateEnv : CreateEnv :=
  { productInsert := .ok sampleProduct, variantsInsertError := none }

def okUpdateEnv : UpdateEnv :=
  { productUpdate := .ok sampleProduct, variantDeleteError := none,
    variantInsertError := none }

def sampleImageUrl : String :=
  "https://abcd.supabase.co/storage/v1/object/public/productImage/products/a.jpg"

def okDeleteEnv : DeleteEnv :=
  { fetchResult := .ok [sampleImageUrl], rowDeleteError := none,
    storageRemoveError := none }

def samplePdNoVariants : ProductFormData :=
  { toProductFormFields := sampleFields, variants := none }

def samplePdTwoToZero : ProductFormData :=
  { toProductFormFields := sampleFields, variants := some [] }

def samplePdOneVariant : ProductFormData :=
  { toProductFormFields := sampleFields, variants := some [sampleVariant] }

def sampleJoined : ProductWithVariants :=
  { product := sampleProduct, variants := [VariantRow.mk "p1" "Red" 5 12] }

def failStorageDeleteEnv : DeleteEnv :=
  { fetchResult := .ok [sampleImageUrl], rowDeleteError := none,
    storageRemoveError := some "quota" }

/-! ## Helper lemmas -/

theorem filterOutIdx_of_neg {α : Type} (l : List α) (i : Int) (h : i < 0) :
    filterOutIdx l i = l := by
  induction l generalizing i with
  | nil => rfl
  | cons a as ih =>
      unfold filterOutIdx
      rw [if_neg (by omega), ih _ (by omega)]

theorem filterOutIdx_of_ge {α : Type} (l : List α) (i : Int)
    (h : (l.length : Int) ≤ i) : filterOutIdx l i = l := by
  induction l generalizing i with
  | nil => rfl
  | cons a as ih =>
      have h1 : ((as.length : Int) + 1) ≤ i := by
        rw [List.length_cons] at h
        push_cast at h
        omega
      unfold filterOutIdx
      rw [if_neg (by omega), ih _ (by omega)]

theorem filterOutIdx_eq_eraseIdx {α : Type} (l : List α) (i : Int) (h : 0 ≤ i) :
    filterOutIdx l i = l.eraseIdx i.toNat := by
  induction l generalizing i with
  | nil => rfl
  | cons a as ih =>
      unfold filterOutIdx
      by_cases h0 : i = 0
      · subst h0
        rw [if_pos rfl, filterOutIdx_of_neg as _ (by omega)]
        rfl
      · rw [if_neg h0, ih _ (by omega)]
        have hsucc : i.toNat = (i - 1).toNat + 1 := by omega
        rw [hsucc, List.eraseIdx_cons_succ]

/-! ## Claim theorems -/

/-- C5: the reconciliation step of handleSubmit keeps exactly the
current entries recognized as persisted (containing the storage domain
marker), in their original order, and appends the newly uploaded URLs;
on an all-persisted list with no uploads it is the identity. -/
theorem C5_reconcileImages_spec (currentImages uploadedUrls : List String) :
    reconcileImages currentImages uploadedUrls
      = currentImages.filter isPersistedUrl ++ uploadedUrls
    ∧ (currentImages.filter isPersistedUrl).Sublist currentImages
    ∧ ((∀ img ∈ currentImages, isPersistedUrl img) →
        reconcileImages currentImages [] = currentImages) := by
  refine ⟨rfl, List.filter_sublist currentImages, fun h => ?_⟩
  unfold reconcileImages
  rw [List.filter_eq_self.mpr h, List.append_nil]

/-- C5 witness: reconciliation at a concrete fully persisted list. -/
theorem C5_reconcileImages_spec_witness :
    (∀ img ∈ [sampleImageUrl], isPersistedUrl img) ∧
    reconcileImages [sampleImageUrl] [] = [sampleImageUrl] :=
  ⟨by decide, (C5_reconcileImages_spec [sampleImageUrl] []).2.2 (by decide)⟩

/-- C9: removeImage at an out-of-range index (negative or at least the
list length) leaves both the visible image list and the pending file
list unchanged. -/
theorem C9_removeImage_out_of_range {α : Type} (index : Int)
    (images : List String) (pendingFiles : List α)
    (h : index < 0 ∨ (images.length : Int) ≤ index) :
    removeImage index images pendingFiles = (images, pendingFiles) := by
  have hnone : jsIndex images index = none := by
    unfold jsIndex
    rcases h with h | h
    · rw [if_pos h]
    · rw [if_neg (by omega)]
      exact List.get?_eq_none.mpr (by omega)
  have himg : filterOutIdx images index = images := by
    rcases h with h | h
    · exact filterOutIdx_of_neg _ _ h
    · exact filterOutIdx_of_ge _ _ h
  unfold removeImage
  rw [hnone, himg]

/-- C9 witness: a too-large and a negative index at concrete lists. -/
theorem C9_removeImage_out_of_range_witness :
    removeImage 5 ["blob:x", sampleImageUrl] ["f1"]
      = (["blob:x", sampleImageUrl], ["f1"])
    ∧ removeImage (-1) ["blob:x"] ["f1"] = (["blob:x"], ["f1"]) :=
  ⟨C9_removeImage_out_of_range 5 ["blob:x", sampleImageUrl] ["f1"]
      (Or.inr (by decide)),
   C9_removeImage_out_of_range (-1) ["blob:x"] ["f1"] (Or.inl (by decide))⟩

/-- C4: on a successful product insert, createProducts issues exactly
one product-row insert, issues a variant insert iff the variant list is
non-empty, tags every inserted variant row with the created product's
id, and returns the created product when the variant insert succeeds. -/
theorem C4_createProducts_spec (productData : ProductFormFields)
    (variants : List ProductVariant) (env : CreateEnv) (product : Product)
    (h : env.productInsert = .ok product) :
    ((createProducts productData variants env).1.countP isInsertProductCall = 1)
    ∧ ((∃ rows, DbCall.insertCreateVariants rows
          ∈ (createProducts productData variants env).1) ↔ variants ≠ [])
    ∧ (∀ rows, DbCall.insertCreateVariants rows
          ∈ (createProducts productData variants env).1 →
        ∀ r ∈ rows, r.product_id = product.id)
    ∧ (env.variantsInsertError = none →
        (createProducts productData variants env).2 = .ok product) := by
  obtain ⟨pi, ve⟩ := env
  simp only at h
  subst h
  by_cases hv : variants.length > 0
  · have hne : variants ≠ [] := by
      intro hnil
      rw [hnil] at hv
      simp at hv
    have htr : (createProducts productData variants ⟨.ok product, ve⟩).1
        = [DbCall.insertProduct productData,
           DbCall.insertCreateVariants (variants.map (fun v =>
             { id := v.id, name := v.name, stock := v.stock, price := v.price,
               product_id := product.id }))] := by
      cases ve <;> simp [createProducts, hv]
    refine ⟨?_, ?_, ?_, ?_⟩
    · rw [htr]
      simp [isInsertProductCall]
    · rw [htr]
      constructor
      · intro _
        exact hne
      · intro _
        exact ⟨variants.map (fun v =>
          { id := v.id, name := v.name, stock := v.stock, price := v.price,
            product_id := product.id }), by simp⟩
    · rw [htr]
      intro rows hmem r hr
      simp only [List.mem_cons, List.not_mem_nil, or_false] at hmem
      rcases hmem with h1 | h1
      · exact absurd h1 (by simp)
      · injection h1 with h2
        subst h2
        simp only [List.mem_map] at hr
        obtain ⟨v, hvmem, rfl⟩ := hr
        rfl
    · intro hc
      cases ve with
      | none => simp [createProducts, hv]
      | some e => simp at hc
  · have hnil : variants = [] := by
      rcases variants with _ | ⟨a, as⟩
      · rfl
      · simp at hv
    subst hnil
    have htr : (createProducts productData [] ⟨.ok product, ve⟩).1
        = [DbCall.insertProduct productData] := by
      cases ve <;> simp [createProducts]
    refine ⟨?_, ?_, ?_, ?_⟩
    · rw [htr]
      simp [isInsertProductCall]
    · rw [htr]
      simp
    · rw [htr]
      intro rows hmem
      simp at hmem
    · intro hc
      cases ve with
      | none => simp [createProducts]
      | some e => simp at hc

/-- C4 witness: a create with one variant and a successful insert. -/
theorem C4_createProducts_spec_witness :
    okCreateEnv.productInsert = .ok sampleProduct
    ∧ ((∃ rows, DbCall.insertCreateVariants rows
          ∈ (createProducts sampleFields [sampleVariant] okCreateEnv).1)
        ↔ [sampleVariant] ≠ []) :=
  ⟨rfl, (C4_createProducts_spec sampleFields [sampleVariant] okCreateEnv
          sampleProduct rfl).2.1⟩

/-- C1 counterexample: an update whose form data carries no variants
field (undefined) issues no variant delete at all, so the delete is not
unconditional. -/
theorem C1_counterexample_no_variants_field :
    (updateProduct "p1" samplePdNoVariants okUpdateEnv).1
      = [DbCall.updateProductRow "p1" sampleFields]
    ∧ DbCall.deleteVariants "p1" ∉ (updateProduct "p1" samplePdNoVariants okUpdateEnv).1 := by
  constructor
  · rfl
  · decide

/-- C1 (amended): updateProduct first updates the product row; then,
whenever a variant list is provided (defined, even empty), it deletes
all variant rows for the id and inserts the new set only when it is
non-empty; when the variants field is absent, no variant delete or
insert is issued. Updating from 2 variants to an empty list issues the
delete and no insert. -/
theorem C1_updateProduct_variant_sequence (id : String) (pd : ProductFormData)
    (env : UpdateEnv) (product : Product)
    (hu : env.productUpdate = .ok product)
    (hd : env.variantDeleteError = none)
    (hi : env.variantInsertError = none) :
    (∀ vs, pd.variants = some vs →
      (updateProduct id pd env).1
        = [DbCall.updateProductRow id pd.toProductFormFields,
           DbCall.deleteVariants id]
          ++ (if vs.length > 0
              then [DbCall.insertUpdateVariants (vs.map (variantRowFor id))]
              else []))
    ∧ (pd.variants = none →
        (updateProduct id pd env).1
          = [DbCall.updateProductRow id pd.toProductFormFields]) := by
  obtain ⟨pu, vde, vie⟩ := env
  simp only at hu hd hi
  subst hu
  subst hd
  subst hi
  constructor
  · intro vs hvs
    by_cases hlen : vs.length > 0
    · simp [updateProduct, hvs, hlen]
    · simp [updateProduct, hvs, hlen]
  · intro hnone
    simp [updateProduct, hnone]

/-- C1 witness: the amended sequencing at concrete inputs, including
the two-variants-to-zero scenario (variant list present but empty). -/
theorem C1_updateProduct_variant_sequence_witness :
    (updateProduct "p1" samplePdTwoToZero okUpdateEnv).1
      = [DbCall.updateProductRow "p1" sampleFields, DbCall.deleteVariants "p1"]
    ∧ (updateProduct "p1" samplePdNoVariants okUpdateEnv).1
      = [DbCall.updateProductRow "p1" sampleFields] := by
  constructor
  · have h := (C1_updateProduct_variant_sequence "p1" samplePdTwoToZero
      okUpdateEnv sampleProduct rfl rfl rfl).1 [] rfl
    simpa using h
  · exact (C1_updateProduct_variant_sequence "p1" samplePdNoVariants
      okUpdateEnv sampleProduct rfl rfl rfl).2 rfl

/-- C10: on an update with a provided non-empty variant list, the
issued variant insert carries exactly the rows rebuilt from the list;
each row has product_id equal to the updated identifier and consists of
exactly the fields product_id, name, stock and price, and the rebuilt
row is independent of any client-supplied variant id. -/
theorem C10_update_variant_rows (id : String) (pd : ProductFormData)
    (env : UpdateEnv) (vs : List ProductVariant) (product : Product)
    (hv : pd.variants = some vs) (hne : vs.length > 0)
    (hu : env.productUpdate = .ok product) (hd : env.variantDeleteError = none) :
    DbCall.insertUpdateVariants (vs.map (variantRowFor id))
      ∈ (updateProduct id pd env).1
    ∧ (∀ rows, DbCall.insertUpdateVariants rows ∈ (updateProduct id pd env).1 →
        rows = vs.map (variantRowFor id) ∧ ∀ r ∈ rows, r.product_id = id)
    ∧ (∀ v : ProductVariant, ∀ x : Option String,
        variantRowFor id { v with id := x } = variantRowFor id v)
    ∧ (∀ v : ProductVariant,
        variantRowFor id v
          = { product_id := id, name := v.name, stock := v.stock,
              price := v.price }) := by
  obtain ⟨pu, vde, vie⟩ := env
  simp only at hu hd
  subst hu
  subst hd
  have htr : (updateProduct id pd
        ⟨.ok product, none, vie⟩).1
      = [DbCall.updateProductRow id pd.toProductFormFields,
         DbCall.deleteVariants id,
         DbCall.insertUpdateVariants (vs.map (variantRowFor id))] := by
    cases vie <;> simp [updateProduct, hv, hne]
  refine ⟨?_, ?_, fun v x => rfl, fun v => rfl⟩
  · rw [htr]
    simp
  · rw [htr]
    intro rows hmem
    simp only [List.mem_cons, List.not_mem_nil, or_false] at hmem
    rcases hmem with h1 | h1 | h1
    · exact absurd h1 (by simp)
    · exact absurd h1 (by simp)
    · injection h1 with h2
      subst h2
      refine ⟨rfl, ?_⟩
      intro r hr
      simp only [List.mem_map] at hr
      obtain ⟨v, hvmem, rfl⟩ := hr
      rfl

/-- C10 witness: an update carrying one variant with a client id shows
the inserted row drops it and is tagged with the product identifier. -/
theorem C10_update_variant_rows_witness :
    DbCall.insertUpdateVariants [VariantRow.mk "p1" "Red" 5 12]
      ∈ (updateProduct "p1" samplePdOneVariant okUpdateEnv).1
    ∧ variantRowFor "p1" { sampleVariant with id := none }
        = variantRowFor "p1" sampleVariant := by
  have h := C10_update_variant_rows "p1" samplePdOneVariant okUpdateEnv
    [sampleVariant] sampleProduct rfl (by decide) rfl rfl
  exact ⟨h.1, h.2.2.1 sampleVariant none⟩

/-- C2 counterexample: at an identifier matching no row, getProduct
completes by returning null (after logging), not by throwing a
NotFoundError. -/
theorem C2_counterexample_returns_null :
    getProduct "missing" [] = JsOutcome.returned none := rfl

/-- C2 (amended): at an identifier matching no row, getProduct logs
and returns null; at an identifier matching exactly one row, it
returns that row joined with its variants. -/
theorem C2_getProduct_spec (productId : String)
    (table : List ProductWithVariants) :
    (table.filter (fun row => row.product.id = productId) = [] →
      getProduct productId table = .returned none)
    ∧ (∀ row, table.filter (fun row => row.product.id = productId) = [row] →
      getProduct productId table = .returned (some row)) := by
  constructor
  · intro h
    unfold getProduct
    rw [h]
  · intro row h
    unfold getProduct
    rw [h]

/-- C2 witness: a one-row table hit and a miss. -/
theorem C2_getProduct_spec_witness :
    getProduct "p1" [sampleJoined] = .returned (some sampleJoined)
    ∧ getProduct "zzz" [sampleJoined] = .returned none :=
  ⟨(C2_getProduct_spec "p1" [sampleJoined]).2 sampleJoined (by decide),
   (C2_getProduct_spec "zzz" [sampleJoined]).1 (by decide)⟩

/-- C3 (the code at the failing input): the quantity sort key reads the
qty property, which Product rows do not have, so the comparator sees
undefined on both sides and returns 0: an ascending quantity sort
leaves a quantity-descending list unchanged instead of reordering it. -/
theorem C3_qty_sort_ignores_quantity :
    filteredProducts (fun _ => 0) "" "全部" SortKey.qty true
        [productQty5, productQty3]
      = [productQty5, productQty3]
    ∧ productQty3.inventoryQuantity < productQty5.inventoryQuantity := by
  constructor
  · rfl
  · decide

/-- C7: when the image fetch and row delete succeed, deleteProduct
returns success whatever the storage outcome; its trace is the fetch,
the row delete, then one batch storage removal of the extracted keys
when any exist, followed by a warning toast exactly when the storage
removal failed. -/
theorem C7_deleteProduct_spec (productId : String) (env : DeleteEnv)
    (images : List String)
    (hf : env.fetchResult = .ok images) (hd : env.rowDeleteError = none) :
    (deleteProduct productId env).2 = .returned true
    ∧ (deleteProduct productId env).1
      = [DbCall.selectProductImages productId,
         DbCall.deleteProductRow productId]
        ++ (if (images.filterMap extractImageKey).length > 0
            then [DbCall.storageRemove (images.filterMap extractImageKey)]
              ++ (match env.storageRemoveError with
                  | some _ => [DbCall.warnToast]
                  | none => [])
            else []) := by
  obtain ⟨fr, rde, sre⟩ := env
  simp only at hf hd
  subst hf
  subst hd
  by_cases him : images.length > 0
  · by_cases hkeys : (images.filterMap extractImageKey).length > 0
    · cases sre <;> simp [deleteProduct, him, hkeys]
    · cases sre <;> simp [deleteProduct, him, hkeys]
  · have hnil : images = [] := by
      rcases images with _ | _
      · rfl
      · simp at him
    subst hnil
    cases sre <;> simp [deleteProduct]

/-- C7 witness: deleting a product with one image whose bucket key is
products/a.jpg issues exactly one storage removal for that key after
the row delete, and a storage failure still yields success. -/
theorem C7_deleteProduct_spec_witness :
    (deleteProduct "p1" okDeleteEnv).1
      = [DbCall.selectProductImages "p1", DbCall.deleteProductRow "p1",
         DbCall.storageRemove ["products/a.jpg"]]
    ∧ (deleteProduct "p1" failStorageDeleteEnv).2 = .returned true := by
  constructor
  · have h := C7_deleteProduct_spec "p1" okDeleteEnv [sampleImageUrl] rfl rfl
    rw [h.2]
    rfl
  · exact (C7_deleteProduct_spec "p1" failStorageDeleteEnv [sampleImageUrl]
      rfl rfl).1

/-- C8 counterexample: at the whitespace search term, the filter keeps
a product whose name does not contain the term, because the
trimmed-empty gate bypasses the name match entirely. -/
theorem C8_counterexample_whitespace_term :
    filterStage " " "全部" [sampleProduct] = [sampleProduct]
    ∧ jsIncludes (jsToLower sampleProduct.productName) (jsToLower " ") = false := by
  constructor
  · rfl
  · decide

/-- C8 (amended): the filter stage keeps exactly the products passing
the name test (bypassed when the trimmed search term is empty) and the
tag test (bypassed at the sentinel category), and is a sublist of the
input collection. -/
theorem C8_filterStage_spec (searchTerm filterCategory : String)
    (products : List Product) :
    filterStage searchTerm filterCategory products
      = products.filter (fun p =>
          (jsTrim searchTerm = ""
            || jsIncludes (jsToLower p.productName) (jsToLower searchTerm))
          && (filterCategory = "全部" || p.productTags = filterCategory))
    ∧ (filterStage searchTerm filterCategory products).Sublist products := by
  have heq : filterStage searchTerm filterCategory products
      = products.filter (fun p =>
          (jsTrim searchTerm = ""
            || jsIncludes (jsToLower p.productName) (jsToLower searchTerm))
          && (filterCategory = "全部" || p.productTags = filterCategory)) := by
    by_cases hs : jsTrim searchTerm = "" <;>
      by_cases hc : filterCategory = "全部" <;>
        simp [filterStage, hs, hc, List.filter_filter, Bool.and_comm]
  refine ⟨heq, ?_⟩
  rw [heq]
  exact List.filter_sublist products

/-- Taking one more element splits off the element found at position n. -/
theorem take_succ_of_get {α : Type} (l : List α) (n : Nat) (a : α)
    (hget : l.get? n = some a) : l.take (n + 1) = l.take n ++ [a] := by
  rw [List.take_succ]
  rw [List.get?_eq_getElem?] at hget
  rw [hget]
  rfl

/-- indexOf over the blob sublist finds the position of the entry at n
among the blob entries, provided the blob entries are distinct. -/
theorem jsIndexOf_filter_eq_countP (l : List String) (n : Nat) (img : String)
    (hget : l.get? n = some img) (hb : isBlobUrl img = true)
    (hnd : (l.filter isBlobUrl).Nodup) :
    jsIndexOf (l.filter isBlobUrl) img = some ((l.take n).countP isBlobUrl) := by
  induction l generalizing n with
  | nil => simp at hget
  | cons a as ih =>
      cases n with
      | zero =>
          rw [List.get?_cons_zero] at hget
          injection hget with ha
          subst ha
          rw [List.filter_cons_of_pos hb]
          simp [jsIndexOf]
      | succ n =>
          rw [List.get?_cons_succ] at hget
          by_cases hba : isBlobUrl a
          · rw [List.filter_cons_of_pos hba] at hnd ⊢
            rw [List.nodup_cons] at hnd
            obtain ⟨hnotmem, hnd2⟩ := hnd
            have himgmem : img ∈ as.filter isBlobUrl :=
              List.mem_filter.mpr ⟨List.get?_mem hget, hb⟩
            have hane : a ≠ img := fun h => hnotmem (h ▸ himgmem)
            simp only [jsIndexOf, if_neg hane, ih n hget hnd2]
            simp [List.take_succ_cons, List.countP_cons, hba, Nat.add_comm]
          · rw [List.filter_cons_of_neg (by simp [hba])] at hnd ⊢
            rw [ih n hget hnd]
            simp [List.take_succ_cons, List.countP_cons, hba]

/-- The count of blob entries before position n is a valid index into
the full blob sublist when the entry at n is itself a blob entry. -/
theorem countP_take_lt (l : List String) (n : Nat) (img : String)
    (hget : l.get? n = some img) (hb : isBlobUrl img = true) :
    (l.take n).countP isBlobUrl < (l.filter isBlobUrl).length := by
  have h2 : l.countP isBlobUrl
      = (l.take n).countP isBlobUrl + 1 + (l.drop (n + 1)).countP isBlobUrl := by
    conv_lhs => rw [← List.take_append_drop (n + 1) l]
    rw [List.countP_append, take_succ_of_get l n img hget, List.countP_append]
    simp [List.countP_cons, hb]
  rw [← List.countP_eq_length_filter]
  omega

/-- Erasing a position whose element satisfies p does not change the
sublist of elements failing p. -/
theorem eraseIdx_filter_not {α : Type} (p : α → Bool) (l : List α) (n : Nat)
    (a : α) (hget : l.get? n = some a) (hp : p a = true) :
    (l.eraseIdx n).filter (fun s => !p s) = l.filter (fun s => !p s) := by
  rw [List.eraseIdx_eq_take_drop_succ]
  conv_rhs => rw [← List.take_append_drop (n + 1) l]
  rw [take_succ_of_get l n a hget]
  rw [List.filter_append, List.filter_append, List.filter_append]
  simp [hp]

/-- Dropping an in-range position shortens a list by exactly one. -/
theorem length_filterOutIdx_of_lt {α : Type} (l : List α) (i : Int)
    (h0 : 0 ≤ i) (hlt : i.toNat < l.length) :
    (filterOutIdx l i).length + 1 = l.length := by
  rw [filterOutIdx_eq_eraseIdx l i h0, List.length_eraseIdx_of_lt hlt]
  omega

/-- C6: removing the entry at an in-range index. When that entry is a
local preview (and the blob entries are distinct and in one-to-one
parallel with the pending files), the visible list and the pending list
each shrink by exactly one, the pending file removed is the one at the
entry's parallel position among the blob entries, and every persisted
(non-blob) entry survives. When the entry is a persisted URL, only the
visible list shrinks and the pending list is untouched. -/
theorem C6_removeImage_spec {α : Type} (index : Int) (images : List String)
    (pendingFiles : List α) (img : String)
    (h0 : 0 ≤ index) (hget : images.get? index.toNat = some img) :
    (isBlobUrl img = true →
      (images.filter isBlobUrl).Nodup →
      pendingFiles.length = (images.filter isBlobUrl).length →
      (removeImage index images pendingFiles).1.length + 1 = images.length
      ∧ (removeImage index images pendingFiles).1.filter (fun s => !isBlobUrl s)
          = images.filter (fun s => !isBlobUrl s)
      ∧ (removeImage index images pendingFiles).2.length + 1 = pendingFiles.length
      ∧ (removeImage index images pendingFiles).2
          = filterOutIdx pendingFiles
              (((images.take index.toNat).countP isBlobUrl : Nat) : Int))
    ∧ (isBlobUrl img = false →
      (removeImage index images pendingFiles).1 = filterOutIdx images index
      ∧ (removeImage index images pendingFiles).1.length + 1 = images.length
      ∧ (removeImage index images pendingFiles).2 = pendingFiles) := by
  have hjs : jsIndex images index = some img := by
    unfold jsIndex
    rw [if_neg (by omega)]
    exact hget
  have hlt : index.toNat < images.length := by
    by_contra hcon
    push_neg at hcon
    rw [List.get?_eq_none.mpr hcon] at hget
    simp at hget
  have h1 : (removeImage index images pendingFiles).1 = filterOutIdx images index :=
    rfl
  constructor
  · intro hb hnd hlen
    have hidx := jsIndexOf_filter_eq_countP images index.toNat img hget hb hnd
    have hpend : (removeImage index images pendingFiles).2
        = filterOutIdx pendingFiles
            (((images.take index.toNat).countP isBlobUrl : Nat) : Int) := by
      simp only [removeImage, hjs, hb, if_true, hidx]
    refine ⟨?_, ?_, ?_, hpend⟩
    · rw [h1]
      exact length_filterOutIdx_of_lt images index h0 hlt
    · rw [h1, filterOutIdx_eq_eraseIdx images index h0]
      exact eraseIdx_filter_not isBlobUrl images index.toNat img hget hb
    · rw [hpend]
      have hklt : (images.take index.toNat).countP isBlobUrl < pendingFiles.length := by
        rw [hlen]
        exact countP_take_lt images index.toNat img hget hb
      refine length_filterOutIdx_of_lt pendingFiles _ (by omega) ?_
      rw [Int.toNat_ofNat]
      exact hklt
  · intro hb
    have hpend : (removeImage index images pendingFiles).2 = pendingFiles := by
      simp only [removeImage, hjs, hb]
      rfl
    exact ⟨h1, by rw [h1]; exact length_filterOutIdx_of_lt images index h0 hlt, hpend⟩

/-- C6 witness: removing the second of two blob previews drops the
second pending file; removing the persisted first entry leaves the
pending files untouched. -/
theorem C6_removeImage_spec_witness :
    (removeImage 2 [sampleImageUrl, "blob:a", "blob:b"] ["f1", "f2"]).2 = ["f1"]
    ∧ (removeImage 2 [sampleImageUrl, "blob:a", "blob:b"] ["f1", "f2"]).1
      = [sampleImageUrl, "blob:a"]
    ∧ (removeImage 0 [sampleImageUrl, "blob:a", "blob:b"] ["f1", "f2"]).2
      = ["f1", "f2"] := by
  have h := (C6_removeImage_spec 2 [sampleImageUrl, "blob:a", "blob:b"]
      ["f1", "f2"] "blob:b" (by decide) (by decide)).1
      (by decide) (by decide) (by decide)
  have h2 := (C6_removeImage_spec 0 [sampleImageUrl, "blob:a", "blob:b"]
      ["f1", "f2"] sampleImageUrl (by decide) (by decide)).2 (by decide)
  refine ⟨?_, ?_, h2.2.2⟩
  · rw [h.2.2.2]
    rfl
  · rfl
